import Mathlib

/-!
# Verification of the `historical` quota-enforced streaming pipeline

Shallow embedding of the token ledger (auth service), the prices service and
the gateway prices handler of the `timakaa/historical` repository, together
with proofs about the specified behaviour.

Conventions of the embedding:
* gorm rows of the `tokens` table become a `List Token`; the `*gorm.DB`
  handle becomes `Option (List Token)` where `none` models a nil handle
  (`s.db == nil` in `auth/internal/server.go`).
* Go `int64` values become `Int` (no arithmetic here comes near 2^63, and
  no overflow-sensitive operation occurs in the modelled code).
* wall-clock time (`time.Now()`) is passed explicitly as an integer number
  of unix seconds.
* gRPC status errors become a `GrpcCode × String` pair in `Except`.
* float64 OHLCV payloads are carried opaquely: no modelled code computes
  with them, they are only copied, so the fields are represented as `Int`.
-/

/-- gRPC status codes used by the modelled services. -/
inductive GrpcCode where
  | ok
  | invalidArgument
  | notFound
  | internal
  | unavailable
  | unauthenticated
  | permissionDenied
  deriving DecidableEq, Repr

/-- A gRPC status error: code plus message. -/
abbrev GrpcErr := GrpcCode × String

/-- A row of the `tokens` table (`models.Token` in the common module,
`src/unnamed/part_014`).  `permissionsJSON` serialization is elided: the
modelled operations read and write `permissions` directly. -/
structure Token where
  id : Nat
  tokenString : String
  expiresAt : Int
  candlesLeft : Int
  permissions : List String
  createdAt : Int
  deriving DecidableEq, Repr

/-- `models.NewToken(permissions, expiresIn)`: quota starts at the fixed
allotment 5000, `ExpiresAt = now + expiresIn` seconds.  The collision-resistant
random id (`generateTokenString`, a UUID v4) and the autoincrement primary key
are supplied by the caller of the model as `newId`/`newTokenString`. -/
def NewToken (newId : Nat) (newTokenString : String) (now : Int)
    (permissions : List String) (expiresIn : Int) : Token :=
  { id := newId
    tokenString := newTokenString
    expiresAt := now + expiresIn
    candlesLeft := 5000
    permissions := permissions
    createdAt := now }

/-- `Token.IsExpired()`: `time.Now().After(t.ExpiresAt)`, i.e. strictly
after the expiry instant. -/
def Token.IsExpired (t : Token) (now : Int) : Bool :=
  now > t.expiresAt

/-- The tokens table; row order models gorm's row order (`First` takes the
first match). -/
abbrev Store := List Token

/-- The database handle of the auth server: `none` is a nil `*gorm.DB`. -/
abbrev DB := Option Store

/-- `s.db.Where("token_string = ?", t).First(&token)`: first row whose
`token_string` equals `t`. -/
def findToken (rows : Store) (t : String) : Option Token :=
  rows.find? (fun r => r.tokenString = t)

/-- Response of `ValidateToken`. -/
structure ValidateResponse where
  isValid : Bool
  userId : String
  permissions : List String
  deriving DecidableEq, Repr

/-- `Server.ValidateToken` (`src/auth/internal/server.go`).  A pure read:
the handler runs only queries, so the store is returned unchanged. -/
def ValidateToken (now : Int) (db : DB) (token : String) :
    Except GrpcErr ValidateResponse × DB :=
  if token = "" then
    (.error (.invalidArgument, "token is required"), db)
  else
    match db with
    | none => (.error (.internal, "database connection not available"), db)
    | some rows =>
      match findToken rows token with
      | none => (.ok { isValid := false, userId := "", permissions := [] }, db)
      | some row =>
        if row.IsExpired now then
          (.ok { isValid := false, userId := "", permissions := [] }, db)
        else
          (.ok { isValid := true
                 userId := "user-" ++ toString row.id
                 permissions := row.permissions }, db)

/-- Response of `CreateToken`. -/
structure CreateTokenResponse where
  token : String
  expiresAt : Int
  deriving DecidableEq, Repr

/-- `Server.CreateToken` (`src/auth/internal/server.go`).  `newId` and
`newTokenString` stand for the generated primary key and UUID token string.
The `BeforeSave`/`db.Create` storage-failure injections of the Go code are
not modelled: the store, when present, accepts the insert. -/
def CreateToken (now : Int) (newId : Nat) (newTokenString : String)
    (db : DB) (permissions : List String) (expiresIn : Int) :
    Except GrpcErr CreateTokenResponse × DB :=
  if expiresIn ≤ 0 then
    (.error (.invalidArgument, "expires_in must be positive"), db)
  else
    match db with
    | none => (.error (.internal, "database connection not available"), db)
    | some rows =>
      let tok := NewToken newId newTokenString now permissions expiresIn
      (.ok { token := tok.tokenString, expiresAt := tok.expiresAt },
       some (rows ++ [tok]))

/-- Response of `RevokeToken`. -/
structure RevokeTokenResponse where
  success : Bool
  deriving DecidableEq, Repr

/-- `s.db.Where("token_string = ?", t).Delete(&models.Token{})`: removes
every row whose `token_string` equals `t`. -/
def deleteByTokenString (rows : Store) (t : String) : Store :=
  rows.filter (fun r => r.tokenString ≠ t)

/-- `Server.RevokeToken` (`src/auth/internal/server.go`): delete by token
string; `RowsAffected == 0` yields `Success: false` with no error. -/
def RevokeToken (db : DB) (token : String) :
    Except GrpcErr RevokeTokenResponse × DB :=
  if token = "" then
    (.error (.invalidArgument, "token is required"), db)
  else
    match db with
    | none => (.error (.internal, "database connection not available"), db)
    | some rows =>
      let remaining := deleteByTokenString rows token
      let rowsAffected := rows.length - remaining.length
      if rowsAffected = 0 then
        (.ok { success := false }, some remaining)
      else
        (.ok { success := true }, some remaining)

/-- Response of `UpdateTokenCandlesLeft` (the `Settle` operation). -/
structure UpdateTokenCandlesLeftResponse where
  candlesLeft : Int
  deriving DecidableEq, Repr

/-- The commit half of `UpdateTokenCandlesLeft`: given the quota value
`cur` read earlier for the row with primary key `id`, compute
`newCandlesLeft = max(0, cur - d)`; delete the row (by primary key,
`s.db.Delete(&token)`) when it is `≤ 0`, otherwise update the row's
`candles_left` in place.  Returns the new store and the response value. -/
def settleCommit (rows : Store) (id : Nat) (cur d : Int) : Store × Int :=
  let newCandlesLeft := max 0 (cur - d)
  if newCandlesLeft ≤ 0 then
    (rows.filter (fun r => r.id ≠ id), newCandlesLeft)
  else
    (rows.map (fun r => if r.id = id then { r with candlesLeft := newCandlesLeft } else r),
     newCandlesLeft)

/-- `Server.UpdateTokenCandlesLeft` (`src/auth/internal/server.go`), the
ledger's `Settle`:
* `DecreaseCandles < 0`: calls `RevokeToken` (its result ignored) and
  returns `CandlesLeft = DecreaseCandles` with no error.  The deletion
  takes effect exactly when `RevokeToken` reaches its delete (nonempty
  token and live handle).
* otherwise: nil handle errors; missing token fails `NotFound`; else the
  current `candles_left` is read (`First` + `Scan`) and `settleCommit`
  runs on it. -/
def UpdateTokenCandlesLeft (db : DB) (token : String) (decreaseCandles : Int) :
    Except GrpcErr UpdateTokenCandlesLeftResponse × DB :=
  if decreaseCandles < 0 then
    let db' := (RevokeToken db token).2
    (.ok { candlesLeft := decreaseCandles }, db')
  else
    match db with
    | none => (.error (.internal, "database connection not available"), db)
    | some rows =>
      match findToken rows token with
      | none => (.error (.notFound, "token not found"), db)
      | some row =>
        let currentCandlesLeft := row.candlesLeft
        let (rows', newCandlesLeft) := settleCommit rows row.id currentCandlesLeft decreaseCandles
        (.ok { candlesLeft := newCandlesLeft }, some rows')

/-- Response of `GetTokenInfo` (the `Inspect` operation). -/
structure GetTokenInfoResponse where
  token : String
  candlesLeft : Int
  expiresAt : Int
  permissions : List String
  deriving DecidableEq, Repr

/-- `Server.GetTokenInfo` (`src/auth/internal/server.go`): pure read. -/
def GetTokenInfo (db : DB) (token : String) :
    Except GrpcErr GetTokenInfoResponse × DB :=
  if token = "" then
    (.error (.invalidArgument, "token is required"), db)
  else
    match db with
    | none => (.error (.internal, "database connection not available"), db)
    | some rows =>
      match findToken rows token with
      | none => (.error (.notFound, "token not found"), db)
      | some row =>
        (.ok { token := row.tokenString
               candlesLeft := row.candlesLeft
               expiresAt := row.expiresAt
               permissions := row.permissions }, db)

/-!
## Interleaved execution of two concurrent `Settle` calls

`UpdateTokenCandlesLeft` (for `DecreaseCandles ≥ 0`) performs a non-atomic
read (`First` + `Scan` of `candles_left`) followed by a write
(`Delete`/`Update`), with no transaction or row lock around the pair.  Two
concurrently running gRPC handlers therefore interleave at the granularity
of these two database operations.  `runTwoSettles` executes two such calls
on the same token under an explicit schedule: each schedule entry names the
thread that performs its next pending step (step 0 = read, step 1 = commit).
A thread whose read finds no row stops (the Go code returns `NotFound`
without a write). -/

/-- Per-thread progress of one in-flight `Settle(token, d)` call. -/
structure SettleThread where
  d : Int
  /-- `none` before the read; `some (id, cur)` after the read found a row. -/
  readValue : Option (Nat × Int)
  done : Bool
  deriving Repr

/-- One database step of one thread: the read if it has not happened,
otherwise the commit. -/
def settleStep (rows : Store) (token : String) (th : SettleThread) :
    Store × SettleThread :=
  if th.done then (rows, th)
  else
    match th.readValue with
    | none =>
      match findToken rows token with
      | none => (rows, { th with done := true })
      | some row => (rows, { th with readValue := some (row.id, row.candlesLeft) })
    | some (id, cur) =>
      let (rows', _) := settleCommit rows id cur th.d
      (rows', { th with done := true })

/-- Run two `Settle(token, d1)` / `Settle(token, d2)` calls under the given
interleaving; `true` in the schedule advances the first call. -/
def runTwoSettles (sched : List Bool) (rows : Store) (token : String)
    (d1 d2 : Int) : Store :=
  let init : SettleThread := { d := d1, readValue := none, done := false }
  let init2 : SettleThread := { d := d2, readValue := none, done := false }
  (sched.foldl
    (fun (st : Store × SettleThread × SettleThread) (who : Bool) =>
      let (rows, t1, t2) := st
      if who then
        let (rows', t1') := settleStep rows token t1
        (rows', t1', t2)
      else
        let (rows', t2') := settleStep rows token t2
        (rows', t1, t2'))
    (rows, init, init2)).1

/-- Quota recorded for `token` after an execution: `some q` when the row is
present, `none` when it was deleted. -/
def quotaOf (rows : Store) (token : String) : Option Int :=
  (findToken rows token).map (·.candlesLeft)

/-!
## Prices service

`Server.GetPrices` of the prices service (exchange-factory variant, in
`src/unnamed/part_009`; exercised by `TestGetPrices`): unregistered exchange
fails `InvalidArgument`; a non-positive limit defaults to 100; an adapter
failure fails `Internal`; otherwise the fetched records are streamed.  The
exchange adapter is abstracted as a function from the effective limit to a
result. -/

/-- One OHLCV record (`proto.PricesResponse` / the gateway's `Price`).
float64 payloads are carried opaquely as integers: the modelled code only
copies them. -/
structure PriceRecord where
  date : String
  o : Int
  h : Int
  l : Int
  c : Int
  v : Int
  deriving DecidableEq, Repr

/-- `Server.GetPrices` of the prices service.  `registered` is the set of
adapter names held by the `ExchangeFactory`; `adapter` is the selected
adapter's `GetHistoricalPrices`, fed the effective limit.  Stream `Send`
failures are not modelled (the relay line transports whatever the adapter
returned). -/
def pricesGetPrices (registered : List String)
    (adapter : Int → Except String (List PriceRecord))
    (exchange ticker : String) (limit : Int) :
    Except GrpcErr (List PriceRecord) :=
  if registered.contains exchange then
    let effLimit := if limit ≤ 0 then 100 else limit
    match adapter effLimit with
    | .error e => .error (.internal, "failed to get prices: " ++ e)
    | .ok prices => .ok prices
  else
    .error (.invalidArgument, "unsupported exchange: " ++ exchange)

/-!
## Gateway prices handler

`PricesHandler.HandleGetHistoricalPrices`
(`src/gateway/internal/handlers/prices.go`), the buffered (collect-then-
respond) variant with token metering.  Its external collaborators are
abstracted as oracles:
* `tokenInfo`: outcome of `authClient.GetTokenInfo` (`.error` = the call
  failed; the handler logs and continues without a pre-check);
* `upstream`: the prices stream — whether `GetPrices` opened, the records
  `Recv` returns before the stream ends, and whether it ends with `EOF`
  (normal) or a mid-flight error.
The result records the HTTP status, the JSON body's price list (when one
was written), and every `GetTokenInfo` / `UpdateTokenCandlesLeft` call the
handler issued, so that theorems can speak about inspection, settlement and
stream opening. -/

/-- Oracle for the upstream price stream as seen by the gateway. -/
structure Upstream where
  /-- `pricesClient.GetPrices` returned without error. -/
  openOk : Bool
  /-- records `stream.Recv()` delivers before the stream ends. -/
  records : List PriceRecord
  /-- `true`: after `records`, `Recv` returns a non-EOF error (mid-flight
  failure, including cancellation by caller disconnect); `false`: EOF. -/
  endedWithError : Bool
  deriving Repr

/-- Observable outcome of one gateway request. -/
structure HandlerResult where
  status : Nat
  /-- price list written in the success body, `none` on error responses. -/
  body : Option (List PriceRecord)
  /-- tokens passed to `GetTokenInfo`, in call order. -/
  inspectCalls : List String
  /-- `(token, decreaseCandles)` arguments of `UpdateTokenCandlesLeft`
  calls, in call order. -/
  settleCalls : List (String × Int)
  /-- `pricesClient.GetPrices` was invoked. -/
  streamOpened : Bool
  deriving Repr

/-- `HandleGetHistoricalPrices`: pre-check 403 when the token-info call
succeeds and `CandlesLeft <= 0 || CandlesLeft < limit`; 500 when the stream
fails to open or errors mid-flight (settlement is skipped in both cases);
otherwise settle by the number of collected records (only when an api key
is present) and answer 200 with the collected list. -/
def HandleGetHistoricalPrices (token : String) (limit : Int)
    (tokenInfo : Except GrpcErr GetTokenInfoResponse) (upstream : Upstream) :
    HandlerResult :=
  let inspectCalls := if token ≠ "" then [token] else []
  let forbidden : Bool :=
    token != "" &&
      match tokenInfo with
      | .error _ => false
      | .ok info => info.candlesLeft ≤ 0 || info.candlesLeft < limit
  if forbidden then
    { status := 403, body := none, inspectCalls := inspectCalls,
      settleCalls := [], streamOpened := false }
  else if ¬ upstream.openOk then
    { status := 500, body := none, inspectCalls := inspectCalls,
      settleCalls := [], streamOpened := true }
  else if upstream.endedWithError then
    -- `Recv` error other than EOF: respond 500 and `return`; the
    -- settlement block after the loop is never reached.
    { status := 500, body := none, inspectCalls := inspectCalls,
      settleCalls := [], streamOpened := true }
  else
    { status := 200, body := some upstream.records,
      inspectCalls := inspectCalls,
      settleCalls :=
        if token ≠ "" then [(token, (upstream.records.length : Int))] else [],
      streamOpened := true }

/-- The gateway request pipeline for `GET /prices/{exchange}/{ticker}`:
the prices service outcome becomes the handler's upstream oracle.  In gRPC
server streaming a status error raised by the service surfaces at `Recv`,
so a service error becomes a stream that opens and then errors mid-flight
with no records. -/
def gatewayPipeline (registered : List String)
    (adapter : Int → Except String (List PriceRecord))
    (token : String) (limit : Int)
    (tokenInfo : Except GrpcErr GetTokenInfoResponse)
    (exchange ticker : String) : HandlerResult :=
  let upstream : Upstream :=
    match pricesGetPrices registered adapter exchange ticker limit with
    | .error _ => { openOk := true, records := [], endedWithError := true }
    | .ok prices => { openOk := true, records := prices, endedWithError := false }
  HandleGetHistoricalPrices token limit tokenInfo upstream

/-!
## Store lemmas

The `tokens` table carries a primary key on `id` and a unique index on
`token_string` (`gorm:"uniqueIndex"`), so stores of interest satisfy the
two `Pairwise` distinctness hypotheses below.
-/

/-- Under the unique index on `token_string`, any row matching `t` is the
row `findToken` returns. -/
theorem eq_of_findToken_of_mem (rows : Store) (t : String) :
    rows.Pairwise (fun a b => a.tokenString ≠ b.tokenString) →
    ∀ row, findToken rows t = some row →
    ∀ x ∈ rows, x.tokenString = t → x = row := by
  induction rows with
  | nil => intro _ row hfind; simp [findToken] at hfind
  | cons r rs ih =>
    intro hp row hfind x hx hxt
    rcases List.pairwise_cons.mp hp with ⟨hr, hrs⟩
    by_cases hrt : r.tokenString = t
    · have hrow : r = row := by simp [findToken, List.find?, hrt] at hfind; exact hfind
      rcases List.mem_cons.mp hx with rfl | hx
      · exact hrow
      · exact absurd (hrt.trans hxt.symm) (hr x hx)
    · have hfind' : findToken rs t = some row := by
        simpa [findToken, List.find?, hrt] using hfind
      rcases List.mem_cons.mp hx with rfl | hx
      · exact absurd hxt hrt
      · exact ih hrs row hfind' x hx hxt

/-- Deleting (by primary key) the row `findToken` returned leaves no row
matching its token string. -/
theorem findToken_filter_ne_id (rows : Store) (t : String) (row : Token)
    (huniq : rows.Pairwise (fun a b => a.tokenString ≠ b.tokenString))
    (hfind : findToken rows t = some row) :
    findToken (rows.filter (fun r => r.id ≠ row.id)) t = none := by
  rw [findToken, List.find?_eq_none]
  intro x hx
  rcases List.mem_filter.mp hx with ⟨hxm, hxid⟩
  simp only [decide_eq_true_eq]
  intro hxt
  have hxeq := eq_of_findToken_of_mem rows t huniq row hfind x hxm hxt
  subst hxeq
  simp at hxid

/-- Updating (by primary key) the row `findToken` returned is observed by a
fresh lookup, provided the update preserves the token string. -/
theorem findToken_map_update (rows : Store) (t : String) (g : Token → Token) :
    rows.Pairwise (fun a b => a.id ≠ b.id) →
    ∀ row, findToken rows t = some row → (g row).tokenString = t →
    findToken (rows.map (fun r => if r.id = row.id then g r else r)) t = some (g row) := by
  induction rows with
  | nil => intro _ row hfind; simp [findToken] at hfind
  | cons r rs ih =>
    intro hp row hfind hg
    rcases List.pairwise_cons.mp hp with ⟨hr, hrs⟩
    by_cases hrt : r.tokenString = t
    · have hrow : r = row := by simp [findToken, List.find?, hrt] at hfind; exact hfind
      subst hrow
      simp [findToken, List.find?, hg]
    · have hfind' : findToken rs t = some row := by
        simpa [findToken, List.find?, hrt] using hfind
      have hmem : row ∈ rs := List.mem_of_find?_eq_some hfind'
      have hne : r.id ≠ row.id := hr row hmem
      have := ih hrs row hfind' hg
      simpa [findToken, List.find?, hne, hrt] using this

/-- `Where("token_string = ?").Delete` removes every row matching `t`. -/
theorem findToken_deleteByTokenString (rows : Store) (t : String) :
    findToken (deleteByTokenString rows t) t = none := by
  rw [findToken, List.find?_eq_none]
  intro x hx
  rcases List.mem_filter.mp hx with ⟨_, hxt⟩
  simpa using hxt

/-- The database handle `RevokeToken` leaves behind on a live store and a
nonempty token: the store with every row of that token string removed. -/
theorem RevokeToken_db (rows : Store) (t : String) (ht : t ≠ "") :
    (RevokeToken (some rows) t).2 = some (deleteByTokenString rows t) := by
  simp only [RevokeToken, if_neg ht]
  split <;> rfl

/-- A newly inserted row with a fresh token string is found by lookup. -/
theorem findToken_append_fresh (rows : Store) (tok : Token)
    (hfresh : ∀ r ∈ rows, r.tokenString ≠ tok.tokenString) :
    findToken (rows ++ [tok]) tok.tokenString = some tok := by
  rw [findToken, List.find?_append]
  have h1 : rows.find? (fun r => r.tokenString = tok.tokenString) = none := by
    rw [List.find?_eq_none]
    intro x hx
    simpa using hfresh x hx
  rw [h1]
  simp [List.find?]

/-- C1.  `Settle(token, delivered)` (`UpdateTokenCandlesLeft`): on a live
store whose rows respect the table's key constraints and a nonempty token,
(i) `delivered < 0` deletes the row unconditionally and returns `delivered`
with no error; (ii) `delivered ≥ 0` on a missing token fails `NotFound`;
(iii) otherwise the result is `newQuota = max 0 (quotaLeft - delivered)`,
the row is gone when `newQuota ≤ 0` and updated in place to `newQuota`
when `newQuota > 0`, and `newQuota` is returned. -/
theorem UpdateTokenCandlesLeft_settle_spec (rows : Store) (t : String) (d : Int)
    (ht : t ≠ "")
    (huniq : rows.Pairwise (fun a b => a.tokenString ≠ b.tokenString))
    (hid : rows.Pairwise (fun a b => a.id ≠ b.id)) :
    (d < 0 → ∃ rows', UpdateTokenCandlesLeft (some rows) t d =
        (.ok { candlesLeft := d }, some rows') ∧ findToken rows' t = none) ∧
    (0 ≤ d → findToken rows t = none →
      UpdateTokenCandlesLeft (some rows) t d =
        (.error (.notFound, "token not found"), some rows)) ∧
    (∀ row, 0 ≤ d → findToken rows t = some row →
      ∃ rows', UpdateTokenCandlesLeft (some rows) t d =
          (.ok { candlesLeft := max 0 (row.candlesLeft - d) }, some rows') ∧
        (max 0 (row.candlesLeft - d) ≤ 0 → findToken rows' t = none) ∧
        (0 < max 0 (row.candlesLeft - d) →
          findToken rows' t =
            some { row with candlesLeft := max 0 (row.candlesLeft - d) })) := by
  refine ⟨?_, ?_, ?_⟩
  · intro hd
    refine ⟨deleteByTokenString rows t, ?_, findToken_deleteByTokenString rows t⟩
    simp only [UpdateTokenCandlesLeft, if_pos hd, RevokeToken_db rows t ht]
  · intro hd hnone
    simp [UpdateTokenCandlesLeft, not_lt.mpr hd, hnone]
  · intro row hd hsome
    have hrt : row.tokenString = t := by
      have := List.find?_some hsome
      simpa using this
    by_cases hq : max 0 (row.candlesLeft - d) ≤ 0
    · have hq' : row.candlesLeft ≤ d := by
        rw [max_le_iff] at hq
        omega
      refine ⟨rows.filter (fun r => r.id ≠ row.id), ?_, fun _ =>
        findToken_filter_ne_id rows t row huniq hsome,
        fun hlt => absurd hq (not_le.mpr hlt)⟩
      simp [UpdateTokenCandlesLeft, not_lt.mpr hd, hsome, settleCommit, hq']
    · have hq' : ¬ row.candlesLeft ≤ d := by
        intro hle
        exact hq (by rw [max_le_iff]; omega)
      have hup := findToken_map_update rows t
        (fun r => { r with candlesLeft := max 0 (row.candlesLeft - d) }) hid row hsome hrt
      refine ⟨rows.map (fun r =>
          if r.id = row.id then { r with candlesLeft := max 0 (row.candlesLeft - d) } else r),
        ?_, fun hle => absurd hle hq, fun _ => hup⟩
      simp [UpdateTokenCandlesLeft, not_lt.mpr hd, hsome, settleCommit, hq']

/-- Witness for C1: the spec scenario's `Settle(X, 100)` on quota 5000
returns 4900 with no error. -/
theorem UpdateTokenCandlesLeft_settle_spec_witness :
    (UpdateTokenCandlesLeft
        (some [{ id := 1, tokenString := "X", expiresAt := 1000, candlesLeft := 5000,
                 permissions := ["read"], createdAt := 0 }]) "X" 100).1 =
      .ok { candlesLeft := 4900 } := by
  obtain ⟨rows', heq, -, -⟩ := (UpdateTokenCandlesLeft_settle_spec
      [{ id := 1, tokenString := "X", expiresAt := 1000, candlesLeft := 5000,
         permissions := ["read"], createdAt := 0 }] "X" 100
      (by decide) (by simp) (by simp)).2.2
      { id := 1, tokenString := "X", expiresAt := 1000, candlesLeft := 5000,
        permissions := ["read"], createdAt := 0 }
      (by norm_num) rfl
  rw [heq]
  norm_num

/-- C3.  `Validate(token)`: the empty token fails `InvalidArgument`; an
absent token yields `valid=false` with no error and an unchanged store; an
expired token yields `valid=false` with no error and an unchanged store at
the call's time and at every later time (so repetitions give the same
result); otherwise `valid=true` with the row's permissions and the derived
identity `user-<id>`. -/
theorem ValidateToken_spec (now now' : Int) (rows : Store) (t : String) :
    (∀ db, ValidateToken now db "" = (.error (.invalidArgument, "token is required"), db)) ∧
    (t ≠ "" → findToken rows t = none →
      ValidateToken now (some rows) t =
        (.ok { isValid := false, userId := "", permissions := [] }, some rows)) ∧
    (∀ row, t ≠ "" → findToken rows t = some row → row.IsExpired now = true →
      now ≤ now' →
      ValidateToken now' (some rows) t =
        (.ok { isValid := false, userId := "", permissions := [] }, some rows)) ∧
    (∀ row, t ≠ "" → findToken rows t = some row → row.IsExpired now = false →
      ValidateToken now (some rows) t =
        (.ok { isValid := true, userId := "user-" ++ toString row.id,
               permissions := row.permissions }, some rows)) := by
  refine ⟨fun db => by simp [ValidateToken], ?_, ?_, ?_⟩
  · intro ht hnone
    simp [ValidateToken, ht, hnone]
  · intro row ht hsome hexp hle
    have hexp' : row.IsExpired now' = true := by
      simp only [Token.IsExpired, decide_eq_true_eq] at hexp ⊢
      omega
    simp [ValidateToken, ht, hsome, hexp']
  · intro row ht hsome hexp
    simp [ValidateToken, ht, hsome, hexp]

/-- Witness for C3: validating an expired row twice, at its call time and
one second later, both give `valid=false` with no error. -/
theorem ValidateToken_spec_witness :
    ValidateToken 2001 (some [{ id := 7, tokenString := "E", expiresAt := 2000,
                                candlesLeft := 5000, permissions := ["read"],
                                createdAt := 0 }]) "E" =
      (.ok { isValid := false, userId := "", permissions := [] },
       some [{ id := 7, tokenString := "E", expiresAt := 2000, candlesLeft := 5000,
               permissions := ["read"], createdAt := 0 }]) := by
  exact (ValidateToken_spec 2001 2001
      [{ id := 7, tokenString := "E", expiresAt := 2000, candlesLeft := 5000,
         permissions := ["read"], createdAt := 0 }] "E").2.2.1
    { id := 7, tokenString := "E", expiresAt := 2000, candlesLeft := 5000,
      permissions := ["read"], createdAt := 0 }
    (by decide) rfl (by decide) le_rfl

/-- C4.  `Create(permissions, ttlSeconds)`: `ttlSeconds ≤ 0` fails
`InvalidArgument` with no row persisted; `ttlSeconds > 0` persists a row
with the freshly generated token string, `quotaLeft = 5000` (the default
allotment), `expiresAt = now + ttlSeconds`, and returns
`{token, expiresAt}`. -/
theorem CreateToken_spec (now : Int) (newId : Nat) (s : String) (rows : Store)
    (perms : List String) (e : Int)
    (hfresh : ∀ r ∈ rows, r.tokenString ≠ s) :
    (e ≤ 0 → ∀ db, CreateToken now newId s db perms e =
      (.error (.invalidArgument, "expires_in must be positive"), db)) ∧
    (0 < e →
      CreateToken now newId s (some rows) perms e =
        (.ok { token := s, expiresAt := now + e },
         some (rows ++ [NewToken newId s now perms e])) ∧
      findToken (rows ++ [NewToken newId s now perms e]) s =
        some (NewToken newId s now perms e) ∧
      (NewToken newId s now perms e).candlesLeft = 5000 ∧
      (NewToken newId s now perms e).expiresAt = now + e ∧
      (NewToken newId s now perms e).permissions = perms) := by
  constructor
  · intro he db
    simp [CreateToken, if_pos he]
  · intro he
    refine ⟨by simp [CreateToken, not_le.mpr he, NewToken], ?_, rfl, rfl, rfl⟩
    exact findToken_append_fresh rows (NewToken newId s now perms e) hfresh

/-- Witness for C4: `Create(_, -1)` fails `InvalidArgument` and persists
nothing, while `Create({"read:prices"}, 3600)` persists a quota-5000 row. -/
theorem CreateToken_spec_witness :
    CreateToken 10 1 "T" (some []) ["read:prices"] (-1) =
      (.error (.invalidArgument, "expires_in must be positive"), some []) ∧
    CreateToken 10 1 "T" (some []) ["read:prices"] 3600 =
      (.ok { token := "T", expiresAt := 3610 },
       some [NewToken 1 "T" 10 ["read:prices"] 3600]) := by
  constructor
  · exact (CreateToken_spec 10 1 "T" [] ["read:prices"] (-1) (by simp)).1 (by norm_num) (some [])
  · have h := ((CreateToken_spec 10 1 "T" [] ["read:prices"] 3600 (by simp)).2 (by norm_num)).1
    simpa using h

/-- C8.  `Revoke(token)` is idempotent deletion: the first call on a store
holding the token succeeds with `success=true`, and revoking again returns
`success=false` as a normal result, not an error, leaving the store as it
was. -/
theorem RevokeToken_idempotent (rows : Store) (t : String) (ht : t ≠ "")
    (hex : ∃ r ∈ rows, r.tokenString = t) :
    RevokeToken (some rows) t =
      (.ok { success := true }, some (deleteByTokenString rows t)) ∧
    RevokeToken (some (deleteByTokenString rows t)) t =
      (.ok { success := false }, some (deleteByTokenString rows t)) := by
  have hlt : (deleteByTokenString rows t).length < rows.length := by
    apply List.length_filter_lt_length_iff_exists.mpr
    obtain ⟨r, hr, hrt⟩ := hex
    exact ⟨r, hr, by simp [hrt]⟩
  have hidem : deleteByTokenString (deleteByTokenString rows t) t =
      deleteByTokenString rows t := by
    apply List.filter_eq_self.mpr
    intro a ha
    exact (List.mem_filter.mp ha).2
  constructor
  · simp only [RevokeToken, if_neg ht]
    split
    · omega
    · rfl
  · simp only [RevokeToken, if_neg ht, hidem]
    split
    · rfl
    · omega

/-- Witness for C8: revoking token `X` twice — first `success=true`, then
`success=false`. -/
theorem RevokeToken_idempotent_witness :
    RevokeToken (some [{ id := 1, tokenString := "X", expiresAt := 1000,
                         candlesLeft := 5000, permissions := [], createdAt := 0 }]) "X" =
      (.ok { success := true }, some []) ∧
    RevokeToken (some []) "X" = (.ok { success := false }, some []) := by
  have h := RevokeToken_idempotent
      [{ id := 1, tokenString := "X", expiresAt := 1000, candlesLeft := 5000,
         permissions := [], createdAt := 0 }] "X" (by decide)
      ⟨{ id := 1, tokenString := "X", expiresAt := 1000, candlesLeft := 5000,
         permissions := [], createdAt := 0 }, by simp, rfl⟩
  simpa [deleteByTokenString] using h

/-- Claim C2 concerns concurrent settles.  The code's read (`First`/`Scan`)
and write (`Delete`/`Update`) are separate statements with no transaction:
under the interleaving read1-read2-write1-write2 on quota 5000 with
deliveries 100 and 200, the ledger ends at 4800 — the first settle is lost —
while the claimed value `max 0 (5000 - 100 - 200)` is 4700, which only the
fully sequential interleaving produces. -/
theorem runTwoSettles_lost_update :
    quotaOf (runTwoSettles [true, false, true, false]
        [{ id := 1, tokenString := "X", expiresAt := 1000, candlesLeft := 5000,
           permissions := [], createdAt := 0 }] "X" 100 200) "X" = some 4800 ∧
    quotaOf (runTwoSettles [true, true, false, false]
        [{ id := 1, tokenString := "X", expiresAt := 1000, candlesLeft := 5000,
           permissions := [], createdAt := 0 }] "X" 100 200) "X" = some 4700 ∧
    (4800 : Int) ≠ max 0 (5000 - 100 - 200) := by
  refine ⟨by rfl, by rfl, by norm_num⟩

/-- Claim C5 concerns mid-flight stream failures.  In the handler, a
non-EOF `Recv` error answers 500 and returns before the settlement block:
with 3 records received out of 10 requested before the error, no
`UpdateTokenCandlesLeft` call is made at all, where the claim requires
`Settle(X, 3)`. -/
theorem handler_midstream_error_skips_settle :
    HandleGetHistoricalPrices "X" 10
        (.ok { token := "X", candlesLeft := 5000, expiresAt := 99999,
               permissions := ["read"] })
        { openOk := true,
          records := [{ date := "2024-03-01", o := 100, h := 101, l := 99, c := 100, v := 1000 },
                      { date := "2024-03-02", o := 101, h := 102, l := 100, c := 101, v := 1001 },
                      { date := "2024-03-03", o := 102, h := 103, l := 101, c := 102, v := 1002 }],
          endedWithError := true } =
      { status := 500, body := none, inspectCalls := ["X"], settleCalls := [],
        streamOpened := true } ∧
    ([] : List (String × Int)) ≠ [("X", 3)] := by
  exact ⟨rfl, by simp⟩

/-- Counterexample to C6 as stated: with a nil store handle, `Validate`
fails with an `Internal`-class error ("database connection not available"),
not an `Unavailable`-class one. -/
theorem nilStore_internal_counterexample :
    (ValidateToken 0 none "some-token").1 =
      .error (.internal, "database connection not available") ∧
    GrpcCode.internal ≠ GrpcCode.unavailable :=
  ⟨rfl, by decide⟩

/-- C6 as amended: with a nil store handle, `Validate`, `Create` (positive
TTL), `Revoke`, `Inspect` (nonempty token) and `Settle` with
`delivered ≥ 0` each fail with the `Internal`-class error
"database connection not available"; `Settle` with `delivered < 0` does not
fail: it returns `delivered` with no error. -/
theorem nilStore_errors_internal (now : Int) (newId : Nat) (s t : String)
    (perms : List String) (e d : Int) (ht : t ≠ "") (he : 0 < e) (hd : 0 ≤ d) :
    (ValidateToken now none t).1 =
      .error (.internal, "database connection not available") ∧
    (CreateToken now newId s none perms e).1 =
      .error (.internal, "database connection not available") ∧
    (RevokeToken none t).1 =
      .error (.internal, "database connection not available") ∧
    (GetTokenInfo none t).1 =
      .error (.internal, "database connection not available") ∧
    (UpdateTokenCandlesLeft none t d).1 =
      .error (.internal, "database connection not available") ∧
    (∀ d2 : Int, d2 < 0 →
      UpdateTokenCandlesLeft none t d2 = (.ok { candlesLeft := d2 }, none)) := by
  refine ⟨?_, ?_, ?_, ?_, ?_, ?_⟩
  · simp [ValidateToken, ht]
  · simp [CreateToken, not_le.mpr he]
  · simp [RevokeToken, ht]
  · simp [GetTokenInfo, ht]
  · simp [UpdateTokenCandlesLeft, not_lt.mpr hd]
  · intro d2 hd2
    simp [UpdateTokenCandlesLeft, RevokeToken, ht, hd2]

/-- Witness for amended C6 at concrete arguments: nil store, token `tok`,
TTL 3600, delivered 10 (errors) and delivered -1 (succeeds). -/
theorem nilStore_errors_internal_witness :
    (ValidateToken 0 none "tok").1 =
      .error (.internal, "database connection not available") ∧
    (UpdateTokenCandlesLeft none "tok" 10).1 =
      .error (.internal, "database connection not available") ∧
    UpdateTokenCandlesLeft none "tok" (-1) = (.ok { candlesLeft := -1 }, none) := by
  have h := nilStore_errors_internal 0 1 "s" "tok" ["read"] 3600 10
    (by decide) (by norm_num) (by norm_num)
  exact ⟨h.1, h.2.2.2.2.1, h.2.2.2.2.2 (-1) (by norm_num)⟩

/-- C7.  When a request carries an api key and the token-info pre-check
observes `quotaLeft ≤ 0` or `quotaLeft < limit`, the handler answers 403
("no candles left in your token") and opens no upstream stream and settles
nothing. -/
theorem handler_forbidden_precheck (token : String) (limit : Int)
    (info : GetTokenInfoResponse) (upstream : Upstream)
    (ht : token ≠ "") (hq : info.candlesLeft ≤ 0 ∨ info.candlesLeft < limit) :
    HandleGetHistoricalPrices token limit (.ok info) upstream =
      { status := 403, body := none, inspectCalls := [token], settleCalls := [],
        streamOpened := false } := by
  rcases hq with hq | hq <;> simp [HandleGetHistoricalPrices, ht, hq]

/-- Witness for C7: a token with 5 candles left against a request for 10
records is rejected with 403 before any stream is opened. -/
theorem handler_forbidden_precheck_witness :
    HandleGetHistoricalPrices "X" 10
        (.ok { token := "X", candlesLeft := 5, expiresAt := 99999,
               permissions := ["read"] })
        { openOk := true, records := [], endedWithError := false } =
      { status := 403, body := none, inspectCalls := ["X"], settleCalls := [],
        streamOpened := false } :=
  handler_forbidden_precheck "X" 10
    { token := "X", candlesLeft := 5, expiresAt := 99999, permissions := ["read"] }
    { openOk := true, records := [], endedWithError := false }
    (by decide) (Or.inr (by norm_num))

/-- C10.  A request without an api key (`x-api-key` absent or empty, so the
handler sees `token = ""`): no token inspection, no quota pre-check, no
settlement call — the ledger is untouched — and the full upstream list is
relayed with a 200 response, for every upstream stream that ends
normally. -/
theorem handler_no_apikey (limit : Int)
    (tokenInfo : Except GrpcErr GetTokenInfoResponse)
    (records : List PriceRecord) :
    HandleGetHistoricalPrices "" limit tokenInfo
        { openOk := true, records := records, endedWithError := false } =
      { status := 200, body := some records, inspectCalls := [], settleCalls := [],
        streamOpened := true } := by
  simp [HandleGetHistoricalPrices]

/-- Counterexample to C9 as stated: a request for the unregistered
exchange `kraken` travels the pipeline and comes out of the gateway as
HTTP 500 — not a 4xx client status. -/
theorem unregistered_exchange_counterexample :
    (gatewayPipeline ["binance", "bybit"] (fun _ => .ok []) "" 0
        (.error (.notFound, "token not found")) "kraken" "BTC-USDT").status = 500 ∧
    ¬ (400 ≤ 500 ∧ 500 < (500 : Nat)) :=
  ⟨rfl, by omega⟩

/-- C9 as amended: the prices service itself distinguishes the two
failures — an unregistered exchange fails `InvalidArgument` (the 4xx
class of the taxonomy), an upstream adapter failure fails `Internal` (the
5xx class), and the two classes are distinct — but the gateway handler
maps both stream failures to HTTP 500, so the distinction does not
survive to the gateway's HTTP surface. -/
theorem pricesGetPrices_error_taxonomy (registered : List String)
    (adapter : Int → Except String (List PriceRecord))
    (exchange ticker : String) (limit : Int)
    (hnot : registered.contains exchange = false) :
    pricesGetPrices registered adapter exchange ticker limit =
      .error (.invalidArgument, "unsupported exchange: " ++ exchange) ∧
    (∀ exch2 ticker2 limit2 e, registered.contains exch2 = true →
      adapter (if limit2 ≤ 0 then 100 else limit2) = .error e →
      pricesGetPrices registered adapter exch2 ticker2 limit2 =
        .error (.internal, "failed to get prices: " ++ e)) ∧
    GrpcCode.invalidArgument ≠ GrpcCode.internal ∧
    (∀ tokenInfo, (gatewayPipeline registered adapter "" limit tokenInfo
        exchange ticker).status = 500) := by
  have hmem : exchange ∉ registered := by simpa using hnot
  have hserv : pricesGetPrices registered adapter exchange ticker limit =
      .error (.invalidArgument, "unsupported exchange: " ++ exchange) := by
    simp [pricesGetPrices, hmem]
  refine ⟨hserv, ?_, by decide, ?_⟩
  · intro exch2 ticker2 limit2 e hreg herr
    have hmem2 : exch2 ∈ registered := by simpa using hreg
    simp [pricesGetPrices, hmem2, herr]
  · intro tokenInfo
    simp [gatewayPipeline, hserv, HandleGetHistoricalPrices]

/-- Witness for amended C9: factory registered with `binance`/`bybit`, a
failing adapter, and the unregistered exchange `kraken`. -/
theorem pricesGetPrices_error_taxonomy_witness :
    pricesGetPrices ["binance", "bybit"] (fun _ => .error "API error")
        "kraken" "BTC-USDT" 10 =
      .error (.invalidArgument, "unsupported exchange: kraken") ∧
    pricesGetPrices ["binance", "bybit"] (fun _ => .error "API error")
        "binance" "BTC-USDT" 10 =
      .error (.internal, "failed to get prices: API error") := by
  have h := pricesGetPrices_error_taxonomy ["binance", "bybit"]
    (fun _ => .error "API error") "kraken" "BTC-USDT" 10 (by decide)
  exact ⟨h.1, h.2.1 "binance" "BTC-USDT" 10 "API error" (by decide) rfl⟩
